import Mathlib

/-!
Verification of the static-analysis core of the `codedevour` repository
(`server/visualizer/parser.py`, `server/visualizer/dependency_analyzer.py`,
`server/visualizer/cache_manager.py`, `server/routes/visualizer.py`).

Modelling conventions of this shallow embedding:
* Absolute file paths are lists of path components (`List String`); every
  parsed file lies under the project root, so `os.path.relpath(p, root)`
  is suffix extraction followed by joining with `/`.
* Python `dict`s keyed by strings are association lists in insertion
  order; assignment overwrites in place, lookup finds the (unique) key.
* Python floats are embedded as rationals (`ℚ`).
* The `alias_config` of `DependencyAnalyzer` is the default empty dict
  (as in `DependencyAnalyzer.__init__` and in all tests), under which the
  alias branch of `_resolve_import` never runs.
-/

namespace CodeDevour

/-! Character-level implementations of the Python string primitives the
source uses (`startswith`, `endswith`, `split`, `replace` with
one-character arguments, slicing, joining).  They are written by
structural recursion over the string's character list so that concrete
runs of the embedding can be evaluated inside proofs. -/

/-- One function or method record as produced by `CodeParser`
(`parser.py`, `_extract_functions` / `_extract_methods`). -/
structure PyFunction where
  name : String
  line_start : Nat
  line_end : Nat
  parameters : List String
  calls : List String
  is_async : Bool
deriving DecidableEq, Repr

/-- One class record as produced by `CodeParser._extract_classes`. -/
structure PyClass where
  name : String
  line_start : Nat
  line_end : Nat
  bases : List String
  methods : List PyFunction
deriving DecidableEq, Repr

/-- One raw import record as produced by `CodeParser._extract_imports`. -/
structure RawImport where
  module : String
  items : List String
  line : Nat
deriving DecidableEq, Repr

/-- The per-file record returned by `CodeParser.parse_file`. -/
structure ParsedFile where
  filepath : List String
  language : String
  size : Nat
  lines : Nat
  functions : List PyFunction
  classes : List PyClass
  imports : List RawImport
deriving DecidableEq, Repr

/-- Python `s.startswith(p)`. -/
def strStartsWith (s p : String) : Bool :=
  p.data.isPrefixOf s.data

/-- Python `s.endswith(p)`. -/
def strEndsWith (s p : String) : Bool :=
  p.data.isSuffixOf s.data

/-- Python `s[n:]` (drop the first `n` characters). -/
def strDrop (s : String) (n : Nat) : String :=
  ⟨s.data.drop n⟩

/-- Python `s[:-n]` for `n ≤ len(s)` (drop the last `n` characters). -/
def strDropRight (s : String) (n : Nat) : String :=
  ⟨s.data.take (s.data.length - n)⟩

/-- Python `s.replace(c, r)` for one-character `c` and `r`. -/
def strReplaceChar (s : String) (c r : Char) : String :=
  ⟨s.data.map (fun a => if a == c then r else a)⟩

/-- Helper for `strSplitOn`: split a character list at a separator. -/
def splitCharList : List Char → Char → List (List Char)
  | [], _ => [[]]
  | a :: rest, c =>
    let r := splitCharList rest c
    if a == c then [] :: r
    else
      match r with
      | [] => [[a]]
      | h :: t => (a :: h) :: t

/-- Python `s.split(c)` for a one-character separator `c`. -/
def strSplitOn (s : String) (c : Char) : List String :=
  (splitCharList s.data c).map (fun l => ⟨l⟩)

/-- Python `sep.join(l)`. -/
def strIntercalate (sep : String) : List String → String
  | [] => ""
  | [a] => a
  | a :: rest => a ++ sep ++ strIntercalate sep rest

/-- `os.path.relpath(fp, root)` for a file below the project root:
drop the root components and join the rest with `/`. -/
def relPath (root fp : List String) : String :=
  strIntercalate "/" (fp.drop root.length)

/-- Python dict assignment `m[k] = v` on an insertion-ordered
association list: overwrite in place if the key exists, else append. -/
def setEntry {α : Type} : List (String × α) → String → α → List (String × α)
  | [], k, v => [(k, v)]
  | (k', w) :: rest, k, v =>
    if k' = k then (k, v) :: rest else (k', w) :: setEntry rest k v

/-- Python dict lookup `m[k]` / `m.get(k)`: the value at the (unique)
occurrence of the key, scanning left to right. -/
def findEntry {α : Type} : List (String × α) → String → Option α
  | [], _ => none
  | (k', v) :: rest, k => if k' = k then some v else findEntry rest k

/-- Python dict membership `k in m`. -/
def hasEntry {α : Type} (m : List (String × α)) (k : String) : Prop :=
  (findEntry m k).isSome

instance {α : Type} (m : List (String × α)) (k : String) :
    Decidable (hasEntry m k) := by
  unfold hasEntry; infer_instance

/-- The value attached to the LAST pair of the list bearing the key
(how repeated dict assignments resolve: the latest write wins). -/
def lastKeyed {α : Type} : List (String × α) → String → Option α
  | [], _ => none
  | (k', v) :: rest, k =>
    match lastKeyed rest k with
    | some w => some w
    | none => if k' = k then some v else none

/-- The value attached to the FIRST pair of the list bearing the key.
This is the claim wording "first-registered definition", kept separate
so it can be compared with what the code computes. -/
def firstKeyed {α : Type} : List (String × α) → String → Option α
  | [], _ => none
  | (k', v) :: rest, k => if k' = k then some v else firstKeyed rest k

/-- A node of the function graph (`build_function_graph`, node dicts).
`name` is the bare function name for module-level functions and
`Class.method` for methods; `id` is `relpath::name`. -/
structure FuncNode where
  id : String
  name : String
  type : String
  file : String
  line_start : Nat
  line_end : Nat
  parameters : List String
deriving DecidableEq, Repr

/-- An edge of the function graph (`build_function_graph`, edge dicts). -/
structure CallEdge where
  source : String
  target : String
  type : String
deriving DecidableEq, Repr

structure FuncGraph where
  nodes : List FuncNode
  edges : List CallEdge
deriving DecidableEq, Repr

/-- The sequence of `func_map[name] = (rel_path, func)` assignments made by
`build_function_graph` while iterating the parsed-file set: for each file,
its module-level functions in order, then each class's methods in order. -/
def registrations (root : List String) (files : List ParsedFile) :
    List (String × (String × PyFunction)) :=
  files.flatMap fun pf =>
    let rel := relPath root pf.filepath
    pf.functions.map (fun f => (f.name, (rel, f))) ++
      pf.classes.flatMap fun c => c.methods.map (fun m => (m.name, (rel, m)))

/-- The `func_map` dict of `build_function_graph`: the registrations
applied as dict assignments (later assignments overwrite earlier ones). -/
def buildFuncMap (root : List String) (files : List ParsedFile) :
    List (String × (String × PyFunction)) :=
  (registrations root files).foldl (fun m kv => setEntry m kv.1 kv.2) []

/-- Node for a module-level function. -/
def mkFuncNode (rel : String) (f : PyFunction) : FuncNode :=
  { id := rel ++ "::" ++ f.name, name := f.name, type := "function",
    file := rel, line_start := f.line_start, line_end := f.line_end,
    parameters := f.parameters }

/-- Node for a class method (`id = rel::Class.method`). -/
def mkMethodNode (rel : String) (c : PyClass) (m : PyFunction) : FuncNode :=
  { id := rel ++ "::" ++ c.name ++ "." ++ m.name, name := c.name ++ "." ++ m.name,
    type := "method", file := rel, line_start := m.line_start,
    line_end := m.line_end, parameters := m.parameters }

/-- `DependencyAnalyzer.build_function_graph()`.  Nodes: one per function
and per method.  Edges: for each module-level function of each file and
each textually collected callee name, an edge to the `func_map` entry for
that bare name, if any.  (The edge loop iterates `data['functions']`
only, so methods never act as edge sources.) -/
def buildFunctionGraph (root : List String) (files : List ParsedFile) : FuncGraph :=
  let funcMap := buildFuncMap root files
  let nodes := files.flatMap fun pf =>
    let rel := relPath root pf.filepath
    pf.functions.map (mkFuncNode rel) ++
      pf.classes.flatMap fun c => c.methods.map (mkMethodNode rel c)
  let edges := files.flatMap fun pf =>
    let rel := relPath root pf.filepath
    pf.functions.flatMap fun f =>
      f.calls.filterMap fun call =>
        match findEntry funcMap call with
        | some (targetFile, targetFunc) =>
          some { source := rel ++ "::" ++ f.name,
                 target := targetFile ++ "::" ++ targetFunc.name,
                 type := "call" }
        | none => none
  { nodes := nodes, edges := edges }

/-- Two files defining a function with the same short name `f`;
`b.py` additionally defines `g` which calls `f`. -/
def c2FunF : PyFunction :=
  { name := "f", line_start := 1, line_end := 2, parameters := [],
    calls := [], is_async := false }

def c2FunG : PyFunction :=
  { name := "g", line_start := 4, line_end := 5, parameters := [],
    calls := ["f"], is_async := false }

def c2FileA : ParsedFile :=
  { filepath := ["r", "a.py"], language := "python", size := 10, lines := 2,
    functions := [c2FunF], classes := [], imports := [] }

def c2FileB : ParsedFile :=
  { filepath := ["r", "b.py"], language := "python", size := 20, lines := 5,
    functions := [c2FunF, c2FunG], classes := [], imports := [] }

/-- A single file with one module-level function `h` (calling itself)
and one class `K` with a method `m` that also calls `h`: the method call
must produce no edge. -/
def c10Method : PyFunction :=
  { name := "m", line_start := 5, line_end := 6, parameters := ["self"],
    calls := ["h"], is_async := false }

def c10Class : PyClass :=
  { name := "K", line_start := 4, line_end := 6, bases := [],
    methods := [c10Method] }

def c10Fun : PyFunction :=
  { name := "h", line_start := 1, line_end := 2, parameters := [],
    calls := ["h"], is_async := false }

def c10File : ParsedFile :=
  { filepath := ["r", "c.py"], language := "python", size := 30, lines := 6,
    functions := [c10Fun], classes := [c10Class], imports := [] }

/-- The filesystem visible to `os.path.isfile` / `os.path.exists`:
the set of existing regular files, as component lists. -/
abbrev FileSys := List (List String)

/-- A node of the file graph.  The Python node dict acquires the
`in_degree` / `out_degree` / `centrality` keys inside
`_calculate_centrality`; here they are fields, filled by
`applyCentrality`. -/
structure FileNode where
  id : String
  type : String
  size : Nat
  lines : Nat
  language : String
  functions_count : Nat
  classes_count : Nat
  filepath : List String
  in_degree : Nat
  out_degree : Nat
  centrality : ℚ
deriving DecidableEq, Repr

/-- An edge of the file graph (`build_file_graph`, edge dicts). -/
structure FileEdge where
  source : String
  target : String
  type : String
  module : String
  items : List String
deriving DecidableEq, Repr

structure FileGraph where
  nodes : List FileNode
  edges : List FileEdge
deriving DecidableEq, Repr

/-- The fixed deny-list of external/built-in module name heads in
`_resolve_import`. -/
def externalModuleHeads : List String :=
  ["os", "sys", "json", "re", "ast", "time", "datetime", "typing",
   "flask", "esprima", "pathlib", "collections", "hashlib",
   "psutil", "tiktoken", "werkzeug", "jinja2", "click",
   "react", "vue", "angular", "axios", "lodash", "moment",
   "@angular", "@types", "node:", "fs", "path", "http", "https"]

/-- The extensions stripped when turning a relative path into a module
name (`_build_file_module_map`); the first matching one is removed. -/
def moduleExts : List String := [".py", ".js", ".jsx", ".ts", ".tsx"]

def stripModuleExt (rel : String) : String :=
  match moduleExts.find? (fun ext => strEndsWith rel ext) with
  | some ext => strDropRight rel ext.data.length
  | none => rel

/-- `DependencyAnalyzer._build_file_module_map()`: module name → file
path, plus intermediate package names whose directory holds an
`__init__.py` (those are only added when the key is not yet present). -/
def buildFileModuleMap (fs : FileSys) (root : List String)
    (files : List ParsedFile) : List (String × List String) :=
  files.foldl (fun m pf =>
    let rel := strReplaceChar (relPath root pf.filepath) '\\' '/'
    let modName := strReplaceChar (stripModuleExt rel) '/' '.'
    let m := setEntry m modName pf.filepath
    let parts := strSplitOn modName '.'
    (List.range' 1 (parts.length - 1)).foldl (fun m i =>
      let pkg := strIntercalate "." (parts.take i)
      if hasEntry m pkg then m
      else
        let initFile := root ++ parts.take i ++ ["__init__.py"]
        if initFile ∈ fs then setEntry m pkg initFile else m) m) []

/-- `os.path.abspath(os.path.join(dir, rel))` for a relative string
path: fold the `/`-separated segments, where `.` and empty segments are
dropped and `..` pops one component. -/
def normSegments (base : List String) (segs : List String) : List String :=
  segs.foldl (fun acc seg =>
    if seg = "." ∨ seg = "" then acc
    else if seg = ".." then acc.dropLast
    else acc ++ [seg]) base

/-- Appending an extension string to a path (`potential_path + ext`):
the extension lands on the last component. -/
def addExt (p : List String) (ext : String) : List String :=
  p.dropLast ++ [(p.getLast?.getD "") ++ ext]

/-- First extension for which `potential_path + ext` is an existing file
that is also a key of the parsed-file set. -/
def tryExtensions (fs : FileSys) (files : List ParsedFile) (p : List String)
    (exts : List String) : Option (List String) :=
  exts.findSome? fun ext =>
    let q := addExt p ext
    if q ∈ fs ∧ ∃ pf ∈ files, pf.filepath = q then some q else none

/-- First extension for which `os.path.join(potential_path, 'index'+ext)`
is an existing file that is also a key of the parsed-file set. -/
def tryIndexFiles (fs : FileSys) (files : List ParsedFile) (p : List String)
    (exts : List String) : Option (List String) :=
  exts.findSome? fun ext =>
    let q := p ++ ["index" ++ ext]
    if q ∈ fs ∧ ∃ pf ∈ files, pf.filepath = q then some q else none

/-- The number of leading dots of the module token (the `level` loop of
`_resolve_import`). -/
def countLeadingDots (s : String) : Nat :=
  (s.toList.takeWhile (fun c => c == '.')).length

/-- Python `l[:-k]` for `k ≥ 0`.  Note `l[:-0]` is `l[:0] = []`, not
`l` — this quirk is what `package_parts[:-(level - 1)]` hits when
`level = 1`. -/
def pyDropLastSlice (l : List String) (k : Nat) : List String :=
  if k = 0 then [] else l.take (l.length - k)

def jsRelativeExts : List String := ["", ".js", ".jsx", ".ts", ".tsx", ".json"]

def rootFallbackExts : List String := [".js", ".jsx", ".ts", ".tsx", ".py", ".json"]

/-- `DependencyAnalyzer._resolve_import(module, current_file, module_map)`
with the default empty `alias_config` (under which the alias branch
never runs).  Branches, in source order: the external deny-list; `./` /
`../` relative resolution with extension and index tries; direct module
map lookup; Python leading-dot relative lookup; root-relative fallback
with extension and index tries. -/
def resolveImport (fs : FileSys) (root : List String) (files : List ParsedFile)
    (moduleMap : List (String × List String)) (module : String)
    (currentFile : List String) : Option (List String) :=
  if externalModuleHeads.any (fun p => strStartsWith module p) then none
  else
    let jsRelative : Option (List String) :=
      if strStartsWith module "./" ∨ strStartsWith module "../" then
        let potential := normSegments currentFile.dropLast (strSplitOn module '/')
        match tryExtensions fs files potential jsRelativeExts with
        | some t => some t
        | none => tryIndexFiles fs files potential jsRelativeExts
      else none
    match jsRelative with
    | some t => some t
    | none =>
      match findEntry moduleMap module with
      | some t => some t
      | none =>
        let relativeLookup : Option (List String) :=
          if strStartsWith module "." then
            let currentDir := currentFile.dropLast
            let relProjectDir :=
              if currentDir = root then "." else relPath root currentDir
            let packagePath := strReplaceChar relProjectDir '/' '.'
            let level := countLeadingDots module
            if level > 0 then
              let packageParts := strSplitOn packagePath '.'
              let baseParts := pyDropLastSlice packageParts (level - 1)
              let rest := strDrop module level
              let finalModule :=
                if rest ≠ "" then strIntercalate "." (baseParts ++ [rest])
                else strIntercalate "." baseParts
              findEntry moduleMap finalModule
            else none
          else none
        match relativeLookup with
        | some t => some t
        | none =>
          let potentialRoot := root ++ strSplitOn module '/'
          match tryExtensions fs files potentialRoot rootFallbackExts with
          | some t => some t
          | none => tryIndexFiles fs files potentialRoot rootFallbackExts

/-- After `_calculate_centrality`'s counting loop, `in_degree[t]` is the
number of edges whose target is `t`. -/
def inDegreeCount (edges : List FileEdge) (id : String) : Nat :=
  (edges.filter (fun e => e.target == id)).length

/-- After the counting loop, `out_degree[s]` is the number of edges
whose source is `s`. -/
def outDegreeCount (edges : List FileEdge) (id : String) : Nat :=
  (edges.filter (fun e => e.source == id)).length

/-- `max(in_degree.values()) if in_degree else 1`: the dict is nonempty
exactly when there is an edge; its values are the in-degrees of the
edge targets (taking the maximum over targets with multiplicity equals
taking it over the distinct dict keys). -/
def maxInDegree (edges : List FileEdge) : Nat :=
  if edges.isEmpty then 1
  else ((edges.map (fun e => e.target)).map (inDegreeCount edges)).foldl Nat.max 0

/-- `max(out_degree.values()) if out_degree else 1`. -/
def maxOutDegree (edges : List FileEdge) : Nat :=
  if edges.isEmpty then 1
  else ((edges.map (fun e => e.source)).map (outDegreeCount edges)).foldl Nat.max 0

/-- The combined centrality score assigned to a node id by
`_calculate_centrality`:
`(in_degree/max_in) * 0.7 + (out_degree/max_out) * 0.3`. -/
def centralityScore (edges : List FileEdge) (id : String) : ℚ :=
  (inDegreeCount edges id : ℚ) / (maxInDegree edges : ℚ) * (7 / 10)
    + (outDegreeCount edges id : ℚ) / (maxOutDegree edges : ℚ) * (3 / 10)

/-- `_calculate_centrality(nodes, edges)`: store each node's in-degree,
out-degree and centrality on the node. -/
def applyCentrality (nodes : List FileNode) (edges : List FileEdge) : List FileNode :=
  nodes.map fun n =>
    { n with
      in_degree := inDegreeCount edges n.id,
      out_degree := outDegreeCount edges n.id,
      centrality := centralityScore edges n.id }

/-- The node dict created for one parsed file in `build_file_graph`
(before `_calculate_centrality` fills the derived fields). -/
def mkFileNode (root : List String) (pf : ParsedFile) : FileNode :=
  { id := relPath root pf.filepath, type := "file", size := pf.size,
    lines := pf.lines, language := pf.language,
    functions_count := pf.functions.length,
    classes_count := pf.classes.length, filepath := pf.filepath,
    in_degree := 0, out_degree := 0, centrality := 0 }

/-- `DependencyAnalyzer.build_file_graph()`: one node per parsed file;
one edge per import whose resolved target is a key of the parsed-file
set; then centrality is computed over the nodes. -/
def buildFileGraph (fs : FileSys) (root : List String)
    (files : List ParsedFile) : FileGraph :=
  let moduleMap := buildFileModuleMap fs root files
  let edges := files.flatMap fun pf =>
    pf.imports.filterMap fun imp =>
      match resolveImport fs root files moduleMap imp.module pf.filepath with
      | some target =>
        if ∃ q ∈ files, q.filepath = target then
          some { source := relPath root pf.filepath,
                 target := relPath root target, type := "import",
                 module := imp.module, items := imp.items }
        else none
      | none => none
  { nodes := applyCentrality (files.map (mkFileNode root)) edges,
    edges := edges }

/-- The two-file set of the spec's end-to-end style example:
`utils.py` defines `helper`, `main.py` imports module `utils`. -/
def c9Helper : PyFunction :=
  { name := "helper", line_start := 1, line_end := 2, parameters := [],
    calls := [], is_async := false }

def c9Util : ParsedFile :=
  { filepath := ["r", "utils.py"], language := "python", size := 25, lines := 2,
    functions := [c9Helper], classes := [], imports := [] }

def c9Main : ParsedFile :=
  { filepath := ["r", "main.py"], language := "python", size := 45, lines := 4,
    functions := [], classes := [],
    imports := [{ module := "utils", items := ["helper"], line := 1 }] }

def c9FS : FileSys := [["r", "utils.py"], ["r", "main.py"]]

/-- The single edge of the two-file set: `main.py` imports `utils.py`. -/
def c9Edge : FileEdge :=
  { source := "main.py", target := "utils.py", type := "import",
    module := "utils", items := ["helper"] }

/-- The parsed-file set of claim C1: `a/util.py` defines `f`, and
`a/main.py` carries the raw import `from .util import f`
(module `.util`, items `['f']`); no `__init__.py` exists. -/
def c1FunF : PyFunction :=
  { name := "f", line_start := 1, line_end := 2, parameters := [],
    calls := [], is_async := false }

def c1Util : ParsedFile :=
  { filepath := ["root", "a", "util.py"], language := "python", size := 30,
    lines := 2, functions := [c1FunF], classes := [], imports := [] }

def c1Main : ParsedFile :=
  { filepath := ["root", "a", "main.py"], language := "python", size := 40,
    lines := 3, functions := [], classes := [],
    imports := [{ module := ".util", items := ["f"], line := 1 }] }

def c1FS : FileSys := [["root", "a", "util.py"], ["root", "a", "main.py"]]

/-- Following the claim's wording for C5: the maximum observed in-degree
over all nodes of the graph, taken as 1 when the graph has no edges. -/
def specMaxInDegree (g : FileGraph) : Nat :=
  if g.edges.isEmpty then 1
  else (g.nodes.map (fun n => n.in_degree)).foldl Nat.max 0

/-- Following the claim's wording for C5: the maximum observed out-degree
over all nodes of the graph, taken as 1 when the graph has no edges. -/
def specMaxOutDegree (g : FileGraph) : Nat :=
  if g.edges.isEmpty then 1
  else (g.nodes.map (fun n => n.out_degree)).foldl Nat.max 0

/-- The first node of the two-file graph (the `utils.py` node). -/
def c5Node : FileNode :=
  ((buildFileGraph c9FS ["r"] [c9Util, c9Main]).nodes).head (by decide)

/-- The base edge set of the C3 counterexample: `t` imports `a` and `b`
(out-degree 2, the observed maximum together with `s`), `m` is imported
by eight files (so `max_in = 8`), and `i1` imports `t`. -/
def c3e (s t : String) : FileEdge :=
  { source := s, target := t, type := "import", module := "", items := [] }

def c3Edges : List FileEdge :=
  [c3e "t" "a", c3e "t" "b", c3e "s" "a", c3e "s" "b",
   c3e "i1" "m", c3e "i2" "m", c3e "i3" "m", c3e "i4" "m",
   c3e "i5" "m", c3e "i6" "m", c3e "i7" "m", c3e "i8" "m",
   c3e "i1" "t"]

/-- The added edge: importer `s` now also imports the target `t`. -/
def c3New : FileEdge := c3e "s" "t"

/-- One `graph[source].append(target)` step on the
`defaultdict(list)` adjacency list (`_build_adjacency_list`). -/
def adjAppend : List (String × List String) → String → String → List (String × List String)
  | [], k, v => [(k, [v])]
  | (k', vs) :: rest, k, v =>
    if k' = k then (k', vs ++ [v]) :: rest else (k', vs) :: adjAppend rest k v

/-- `DependencyAnalyzer._build_adjacency_list()` over the file-graph
edge list. -/
def buildAdjacencyList (edges : List FileEdge) : List (String × List String) :=
  edges.foldl (fun g e => adjAppend g e.source e.target) []

/-- `graph.get(node, [])`. -/
def adjGet (g : List (String × List String)) (node : String) : List String :=
  (findEntry g node).getD []

/-- Python `list.index(x)`, first index.  The source calls it only when
the element is present (a neighbor on the recursion stack is on the
current path); on an absent element Python would raise `ValueError`,
which does not occur in the runs considered here. -/
def pyIndex : List String → String → Nat
  | [], _ => 0
  | b :: rest, a => if b = a then 0 else pyIndex rest a + 1

/-- The mutable state of `detect_circular_dependencies`: the `visited`
set, the explicit recursion stack, and the collected cycles. -/
structure DfsState where
  visited : List String
  recStack : List String
  cycles : List (List String)
deriving DecidableEq, Repr

/-- The inner `dfs(node, path)` of `detect_circular_dependencies`, with
the mutated sets threaded as state and a fuel argument bounding the
recursion depth (each recursive call is made on a not-yet-visited node
and marks it visited, so any fuel larger than the number of nodes is
enough).  On entry the node is added to `visited`, the recursion stack
and the (per-call copy of the) path; each neighbor is recursed into if
unvisited, else, if it is on the recursion stack, the path suffix from
its first occurrence plus the neighbor itself is recorded as a cycle;
on exit the node is removed from the recursion stack. -/
def dfs (g : List (String × List String)) :
    Nat → String → List String → DfsState → DfsState
  | 0, _, _, st => st
  | fuel + 1, node, path, st =>
    let st := { st with visited := st.visited ++ [node],
                        recStack := st.recStack ++ [node] }
    let path := path ++ [node]
    let st := (adjGet g node).foldl (fun st nbr =>
      if nbr ∈ st.visited then
        if nbr ∈ st.recStack then
          { st with cycles := st.cycles ++ [path.drop (pyIndex path nbr) ++ [nbr]] }
        else st
      else dfs g fuel nbr path st) st
    { st with recStack := st.recStack.erase node }

/-- `DependencyAnalyzer.detect_circular_dependencies()`: run the DFS
from every not-yet-visited key of the adjacency list, in insertion
order. -/
def detectCircularDependencies (edges : List FileEdge) : List (List String) :=
  let g := buildAdjacencyList edges
  let fuel := 2 * edges.length + 1
  ((g.map (fun p => p.1)).foldl
    (fun st node => if node ∈ st.visited then st else dfs g fuel node [] st)
    { visited := [], recStack := [], cycles := [] }).cycles

/-- An import edge carrying only its endpoints, as cycle detection sees
it. -/
def c4e (s t : String) : FileEdge :=
  { source := s, target := t, type := "import", module := "", items := [] }

/-- `CodeParser.supported_extensions`. -/
def supportedExtensions : List String :=
  [".py", ".js", ".jsx", ".ts", ".tsx", ".java", ".c", ".h",
   ".cpp", ".hpp", ".cc", ".cxx", ".go", ".rs", ".php", ".rb",
   ".cs", ".swift", ".kt", ".kts"]

/-- The basename of a path. -/
def baseName (p : List String) : String := p.getLast?.getD ""

/-- The extension part of `os.path.splitext(name)`: everything from the
last dot of the basename on, where leading dots do not begin an
extension (`.gitignore` has none). -/
def fileExt (name : String) : String :=
  let cs := name.data
  let lead := (cs.takeWhile (fun c => c == '.')).length
  let rest := cs.drop lead
  if rest.contains '.' then
    ⟨'.' :: (rest.reverse.takeWhile (fun c => c != '.')).reverse⟩
  else ""

/-- Python `len(source.splitlines())` (universal-newline handling
beyond `\n` elided — no claim depends on it): the number of `\n`
characters, plus one if the text is nonempty and does not end in
`\n`. -/
def pyLineCount (s : String) : Nat :=
  if s.data.isEmpty then 0
  else (s.data.filter (fun c => c == '\n')).length +
    (if s.data.getLast?.getD '\n' == '\n' then 0 else 1)

/-- The effectful operations the per-language parsers perform, as
oracles; each fallible one returns `Except Unit` (any raised exception
is `.error ()`).  `read` models open + decode + `os.path.getsize`;
`pyAst` models `ast.parse` plus the Python AST extractors;
`esprimaModule` / `esprimaScript` model the two esprima entry points
plus extraction; `regexJs` models the pure regex extraction used for
`.tsx`/`.jsx`; `regexLang` models the regex extraction of the
remaining languages (keyed by the language tag). -/
structure ParseEnv where
  read : List String → Except Unit (String × Nat)
  pyAst : String → Except Unit (List PyFunction × List PyClass × List RawImport)
  esprimaModule : String → Except Unit (List PyFunction × List PyClass × List RawImport)
  esprimaScript : String → Except Unit (List PyFunction × List PyClass × List RawImport)
  regexJs : String → List PyFunction × List PyClass × List RawImport
  regexLang : String → String → Except Unit (List PyFunction × List PyClass × List RawImport)

/-- `CodeParser._parse_python_file`: any failure of reading or of
`ast.parse`/extraction is caught and turned into `None`. -/
def parsePythonFile (env : ParseEnv) (p : List String) : Option ParsedFile :=
  match env.read p with
  | .error _ => none
  | .ok (src, size) =>
    match env.pyAst src with
    | .error _ => none
    | .ok (fns, cls, imps) =>
      some { filepath := p, language := "python", size := size,
             lines := pyLineCount src, functions := fns, classes := cls,
             imports := imps }

/-- The extraction step of `_parse_js_ts_file`: regex extraction for
`.tsx`/`.jsx`, otherwise `esprima.parseModule` with a bare-except
fallback to `esprima.parseScript`. -/
def jsExtraction (env : ParseEnv) (ext src : String) :
    Except Unit (List PyFunction × List PyClass × List RawImport) :=
  if ext = ".tsx" ∨ ext = ".jsx" then Except.ok (env.regexJs src)
  else
    match env.esprimaModule src with
    | .ok t => Except.ok t
    | .error _ => env.esprimaScript src

/-- `CodeParser._parse_js_ts_file`: read, extract (`jsExtraction`), and
catch every failure as `None`. -/
def parseJsTsFile (env : ParseEnv) (p : List String) : Option ParsedFile :=
  match env.read p with
  | .error _ => none
  | .ok (src, size) =>
    match jsExtraction env (fileExt (baseName p)) src with
    | .error _ => none
    | .ok (fns, cls, imps) =>
      some { filepath := p,
             language :=
               if fileExt (baseName p) = ".ts" ∨ fileExt (baseName p) = ".tsx"
               then "typescript" else "javascript",
             size := size, lines := pyLineCount src, functions := fns,
             classes := cls, imports := imps }

/-- The common shape of `_parse_java_file`, `_parse_c_cpp_file`,
`_parse_go_file`, `_parse_rust_file`, `_parse_php_file`,
`_parse_ruby_file`, `_parse_csharp_file`, `_parse_swift_file` and
`_parse_kotlin_file`: read, run the language's regex extractors, and
catch every failure as `None`. -/
def parseRegexLangFile (env : ParseEnv) (p : List String) (lang : String) :
    Option ParsedFile :=
  match env.read p with
  | .error _ => none
  | .ok (src, size) =>
    match env.regexLang lang src with
    | .error _ => none
    | .ok (fns, cls, imps) =>
      some { filepath := p, language := lang, size := size,
             lines := pyLineCount src, functions := fns, classes := cls,
             imports := imps }

/-- `CodeParser.parse_file`: reject unsupported extensions, then
dispatch on the extension exactly as the source's if/elif chain does. -/
def extDispatch (env : ParseEnv) (p : List String) (ext : String) :
    Option ParsedFile :=
  if ext = ".py" then parsePythonFile env p
  else if ext ∈ [".js", ".ts", ".tsx", ".jsx"] then parseJsTsFile env p
  else if ext = ".java" then parseRegexLangFile env p "java"
  else if ext ∈ [".c", ".h", ".cpp", ".hpp", ".cc", ".cxx"] then
    parseRegexLangFile env p
      (if ext ∈ [".cpp", ".hpp", ".cc", ".cxx"] then "cpp" else "c")
  else if ext = ".go" then parseRegexLangFile env p "go"
  else if ext = ".rs" then parseRegexLangFile env p "rust"
  else if ext = ".php" then parseRegexLangFile env p "php"
  else if ext = ".rb" then parseRegexLangFile env p "ruby"
  else if ext = ".cs" then parseRegexLangFile env p "csharp"
  else if ext = ".swift" then parseRegexLangFile env p "swift"
  else if ext ∈ [".kt", ".kts"] then parseRegexLangFile env p "kotlin"
  else none

def parseFile (env : ParseEnv) (p : List String) : Option ParsedFile :=
  if fileExt (baseName p) ∉ supportedExtensions then none
  else extDispatch env p (fileExt (baseName p))

/-- An environment in which every read raises. -/
def c6Env : ParseEnv :=
  { read := fun _ => .error (), pyAst := fun _ => .error (),
    esprimaModule := fun _ => .error (), esprimaScript := fun _ => .error (),
    regexJs := fun _ => ([], [], []), regexLang := fun _ _ => .error () }

/-- The state of one serialized cache document on disk: file missing,
file present but failing to deserialize (`json.load` raises), or
present with a deserialized value. -/
inductive CacheDoc (α : Type) where
  | absent
  | corrupt
  | stored (a : α)
deriving DecidableEq, Repr

/-- Metadata as `scan_project` and `is_cache_valid` consume it:
`last_scan` (epoch seconds) and the two stored filter-fingerprint
hashes; the hashes are read with `dict.get(..., '')`, so an absent key
is modelled as `none` and read with default `""`. -/
structure CacheMetadata where
  last_scan : ℚ
  exclude_patterns_hash : Option String
  just_me_patterns_hash : Option String
deriving DecidableEq, Repr

/-- The cache documents of one project that the scan route reads. -/
structure CacheStore where
  filesDoc : CacheDoc (List (String × ParsedFile))
  graphDoc : CacheDoc FileGraph
  metadataDoc : CacheDoc CacheMetadata
deriving DecidableEq, Repr

/-- `CacheManager.load_parsed_files`: a missing file returns `None`; a
`json.load` failure is caught and returns `None`. -/
def load_parsed_files (s : CacheStore) : Option (List (String × ParsedFile)) :=
  match s.filesDoc with
  | .absent => none
  | .corrupt => none
  | .stored d => some d

/-- `CacheManager.load_dependency_graph`: same contract. -/
def load_dependency_graph (s : CacheStore) : Option FileGraph :=
  match s.graphDoc with
  | .absent => none
  | .corrupt => none
  | .stored d => some d

/-- `CacheManager.load_metadata`: same contract. -/
def load_metadata (s : CacheStore) : Option CacheMetadata :=
  match s.metadataDoc with
  | .absent => none
  | .corrupt => none
  | .stored d => some d

/-- `CacheManager.is_cache_valid(project, max_age_hours)`: `False` when
the metadata does not load, else the age comparison
`(time.time() - last_scan) / 3600 < max_age_hours`. -/
def is_cache_valid (s : CacheStore) (now max_age_hours : ℚ) : Bool :=
  match load_metadata s with
  | none => false
  | some m => decide ((now - m.last_scan) / 3600 < max_age_hours)

/-- The request flags of `scan_project` (defaults in the source:
`use_cache=True`, `force_refresh=False`). -/
structure ScanRequest where
  use_cache : Bool
  force_refresh : Bool
deriving DecidableEq, Repr

/-- What the route returns: the cached payload (with `cached=True`) or
a fresh scan. -/
inductive ScanOutcome where
  | cachedResult (files : List (String × ParsedFile)) (metadata : Option CacheMetadata)
  | freshScan
deriving DecidableEq, Repr

/-- The cache-consultation logic of `scan_project`
(`routes/visualizer.py`, lines 100-133).  The entry is used only when
`use_cache` is set, `force_refresh` is not, the age check passes, the
metadata loads, and both stored fingerprint hashes (absent keys read as
`''`) equal the hashes of the currently active pattern sets.  Then,
when the cached files and graph both load and are truthy (a loaded
empty file dict is falsy in Python and falls through; a loaded graph
dict has its two fixed keys and is always truthy), the cached result is
returned unchanged with `cached=True`; in every other case a fresh scan
runs. -/
def scan_project (req : ScanRequest) (s : CacheStore) (now max_age_hours : ℚ)
    (currentExcludeHash currentJustMeHash : String) : ScanOutcome :=
  let cache_valid :=
    req.use_cache && !req.force_refresh && is_cache_valid s now max_age_hours &&
      (match load_metadata s with
       | some m =>
         decide (m.exclude_patterns_hash.getD "" = currentExcludeHash) &&
           decide (m.just_me_patterns_hash.getD "" = currentJustMeHash)
       | none => false)
  if cache_valid then
    match load_parsed_files s, load_dependency_graph s with
    | some files, some _ =>
      if files.isEmpty then .freshScan
      else .cachedResult files (load_metadata s)
    | _, _ => .freshScan
  else .freshScan

/-- A fully healthy cache entry: fresh timestamp, stored hashes `ex`
and `jm`, loadable nonempty files and a loadable graph. -/
def c7Meta : CacheMetadata :=
  { last_scan := 0, exclude_patterns_hash := some "ex",
    just_me_patterns_hash := some "jm" }

def c7Store : CacheStore :=
  { filesDoc := .stored [("utils.py", c9Util)],
    graphDoc := .stored { nodes := [], edges := [] },
    metadataDoc := .stored c7Meta }

/-- The empty cache: all three documents missing. -/
def c8Store : CacheStore :=
  { filesDoc := .absent, graphDoc := .absent, metadataDoc := .absent }

/-! ## Theorems -/

theorem findEntry_setEntry {α : Type} (m : List (String × α)) (k k' : String) (v : α) :
    findEntry (setEntry m k v) k' = if k = k' then some v else findEntry m k' := by
  induction m with
  | nil =>
    by_cases h : k = k' <;> simp [setEntry, findEntry, h]
  | cons p rest ih =>
    obtain ⟨k₀, w⟩ := p
    by_cases h0 : k₀ = k
    · subst h0
      by_cases h : k₀ = k' <;> simp [setEntry, findEntry, h]
    · by_cases h : k₀ = k'
      · subst h
        simp [setEntry, findEntry, h0, Ne.symm h0]
      · simp [setEntry, findEntry, h0, h, ih]

/-- Folding repeated dict assignments over a list of key/value pairs:
lookup afterwards returns the last write for the key, falling back to
the initial dict. -/
theorem findEntry_foldl_setEntry {α : Type} (l : List (String × α))
    (m : List (String × α)) (k : String) :
    findEntry (l.foldl (fun m kv => setEntry m kv.1 kv.2) m) k =
      match lastKeyed l k with
      | some w => some w
      | none => findEntry m k := by
  induction l generalizing m with
  | nil => simp [lastKeyed]
  | cons kv t ih =>
    obtain ⟨a, b⟩ := kv
    simp only [List.foldl_cons, ih, lastKeyed]
    cases h : lastKeyed t k with
    | some w => rfl
    | none =>
      simp only [findEntry_setEntry]
      by_cases hak : a = k <;> simp [hak]

theorem findEntry_buildFuncMap (root : List String) (files : List ParsedFile)
    (k : String) :
    findEntry (buildFuncMap root files) k = lastKeyed (registrations root files) k := by
  unfold buildFuncMap
  rw [findEntry_foldl_setEntry]
  cases lastKeyed (registrations root files) k <;> simp [findEntry]

/-- C2: counterexample.  In the two-file set where `a.py` defines `f`
first and `b.py` defines `f` and `g` (with `g` calling `f`), the
first-registered definition of the colliding short name `f` is the one
in `a.py`, yet the single call edge targets `b.py::f`: `func_map`
assignment overwrites, so the LAST-registered definition wins, refuting
the claim that every such edge targets the first-registered one. -/
theorem C2_first_registered_counterexample :
    firstKeyed (registrations ["r"] [c2FileA, c2FileB]) "f" = some ("a.py", c2FunF)
    ∧ (buildFunctionGraph ["r"] [c2FileA, c2FileB]).edges =
        [{ source := "b.py::g", target := "b.py::f", type := "call" }]
    ∧ ("b.py::f" : String) ≠ "a.py::f" := by
  refine ⟨by decide, by decide, by decide⟩

/-- C2 (amended): in `build_function_graph()`, when functions or methods
share a short name, every call edge whose callee bears that name targets
the LAST-registered definition (the one registered latest while
iterating the parsed-file set), because the `func_map` dict assignment
overwrites earlier registrations. -/
theorem C2_edges_target_last_registered (root : List String) (files : List ParsedFile) :
    ∀ e ∈ (buildFunctionGraph root files).edges,
      ∃ name entry, lastKeyed (registrations root files) name = some entry ∧
        e.target = entry.1 ++ "::" ++ entry.2.name := by
  intro e he
  simp only [buildFunctionGraph, List.mem_flatMap, List.mem_append,
    List.mem_filterMap] at he
  obtain ⟨pf, hpf, f, hf, call, hcall, hmk⟩ := he
  rcases hfind : findEntry (buildFuncMap root files) call with _ | ⟨tf, tfn⟩
  · rw [hfind] at hmk; exact absurd hmk (by simp)
  · rw [hfind] at hmk
    refine ⟨call, (tf, tfn), ?_, ?_⟩
    · rw [← findEntry_buildFuncMap]; exact hfind
    · cases hmk; rfl

/-- C2 (amended, witness): the concrete call edge of the two-file
collision set indeed targets the last-registered `f`. -/
theorem C2_edges_target_last_registered_witness :
    ({ source := "b.py::g", target := "b.py::f", type := "call" } : CallEdge)
        ∈ (buildFunctionGraph ["r"] [c2FileA, c2FileB]).edges
    ∧ ∃ name entry,
        lastKeyed (registrations ["r"] [c2FileA, c2FileB]) name = some entry ∧
        ({ source := "b.py::g", target := "b.py::f", type := "call" } : CallEdge).target
          = entry.1 ++ "::" ++ entry.2.name :=
  ⟨by decide, C2_edges_target_last_registered ["r"] [c2FileA, c2FileB] _ (by decide)⟩

/-- C10: call edges of `build_function_graph()` are generated only from
the module-level functions of each parsed file — every edge's source is
`relpath::name` for some entry of some file's `functions` list, since
the edge loop iterates `data['functions']` only — while class methods
still appear as nodes. -/
theorem C10_edges_only_from_module_functions (root : List String) (files : List ParsedFile) :
    (∀ e ∈ (buildFunctionGraph root files).edges,
        ∃ pf ∈ files, ∃ f ∈ pf.functions,
          e.source = relPath root pf.filepath ++ "::" ++ f.name)
    ∧ (∀ pf ∈ files, ∀ c ∈ pf.classes, ∀ m ∈ c.methods,
        mkMethodNode (relPath root pf.filepath) c m ∈ (buildFunctionGraph root files).nodes) := by
  constructor
  · intro e he
    simp only [buildFunctionGraph, List.mem_flatMap, List.mem_filterMap] at he
    obtain ⟨pf, hpf, f, hf, call, hcall, hmk⟩ := he
    refine ⟨pf, hpf, f, hf, ?_⟩
    rcases hfind : findEntry (buildFuncMap root files) call with _ | ⟨tf, tfn⟩
    · rw [hfind] at hmk; exact absurd hmk (by simp)
    · rw [hfind] at hmk; cases hmk; rfl
  · intro pf hpf c hc m hm
    simp only [buildFunctionGraph, List.mem_flatMap, List.mem_append, List.mem_map]
    exact ⟨pf, hpf, Or.inr ⟨c, hc, m, hm, rfl⟩⟩

/-- C10 (witness): in the one-file set with function `h` and method
`K.m`, the self-call edge's source comes from a module-level function,
and the method node `c.py::K.m` is present. -/
theorem C10_edges_only_from_module_functions_witness :
    (∃ pf ∈ [c10File], ∃ f ∈ pf.functions,
        ({ source := "c.py::h", target := "c.py::h", type := "call" } : CallEdge).source
          = relPath ["r"] pf.filepath ++ "::" ++ f.name)
    ∧ mkMethodNode (relPath ["r"] c10File.filepath) c10Class c10Method
        ∈ (buildFunctionGraph ["r"] [c10File]).nodes :=
  ⟨(C10_edges_only_from_module_functions ["r"] [c10File]).1 _ (by decide),
   (C10_edges_only_from_module_functions ["r"] [c10File]).2 c10File (by decide)
     c10Class (by decide) c10Method (by decide)⟩

/-- Every edge produced by `build_file_graph` runs through the guard
`target_file in self.parsed_files`, and its source is the file being
iterated; so both endpoints are relative paths of parsed files. -/
theorem buildFileGraph_edges_endpoints (fs : FileSys) (root : List String)
    (files : List ParsedFile) :
    ∀ e ∈ (buildFileGraph fs root files).edges,
      (∃ pf ∈ files, relPath root pf.filepath = e.source) ∧
      (∃ pf ∈ files, relPath root pf.filepath = e.target) := by
  intro e he
  simp only [buildFileGraph, List.mem_flatMap, List.mem_filterMap] at he
  obtain ⟨pf, hpf, imp, himp, hmk⟩ := he
  split at hmk
  · split at hmk
    · next target heq hq =>
      obtain ⟨q, hqf, hqeq⟩ := hq
      cases hmk
      exact ⟨⟨pf, hpf, rfl⟩, ⟨q, hqf, by rw [hqeq]⟩⟩
    · exact absurd hmk (by simp)
  · exact absurd hmk (by simp)

/-- Each node of the graph is the node of one parsed file, carrying the
in-degree, out-degree and centrality that `_calculate_centrality`
computes for its id. -/
theorem buildFileGraph_node_fields (fs : FileSys) (root : List String)
    (files : List ParsedFile) :
    ∀ n ∈ (buildFileGraph fs root files).nodes,
      (∃ pf ∈ files, n.id = relPath root pf.filepath)
      ∧ n.in_degree = inDegreeCount (buildFileGraph fs root files).edges n.id
      ∧ n.out_degree = outDegreeCount (buildFileGraph fs root files).edges n.id
      ∧ n.centrality = centralityScore (buildFileGraph fs root files).edges n.id := by
  intro n hn
  simp only [buildFileGraph, applyCentrality, List.map_map, List.mem_map,
    Function.comp] at hn
  obtain ⟨pf, hpf, rfl⟩ := hn
  exact ⟨⟨pf, hpf, rfl⟩, rfl, rfl, rfl⟩

/-- Conversely, every parsed file contributes a node whose id is its
relative path and whose stored degrees count the edges at that id. -/
theorem buildFileGraph_node_of_file (fs : FileSys) (root : List String)
    (files : List ParsedFile) :
    ∀ pf ∈ files, ∃ n ∈ (buildFileGraph fs root files).nodes,
      n.id = relPath root pf.filepath
      ∧ n.in_degree =
          inDegreeCount (buildFileGraph fs root files).edges (relPath root pf.filepath)
      ∧ n.out_degree =
          outDegreeCount (buildFileGraph fs root files).edges (relPath root pf.filepath) := by
  intro pf hpf
  refine ⟨{ mkFileNode root pf with
      in_degree :=
        inDegreeCount (buildFileGraph fs root files).edges (relPath root pf.filepath),
      out_degree :=
        outDegreeCount (buildFileGraph fs root files).edges (relPath root pf.filepath),
      centrality :=
        centralityScore (buildFileGraph fs root files).edges (relPath root pf.filepath) },
    ?_, rfl, rfl, rfl⟩
  simp only [buildFileGraph, applyCentrality, List.map_map, List.mem_map,
    Function.comp]
  exact ⟨pf, hpf, rfl⟩

/-- C9: every edge of the graph returned by `build_file_graph()` has a
source and a target that are both ids of nodes of that same graph. -/
theorem C9_edge_endpoints_are_node_ids (fs : FileSys) (root : List String)
    (files : List ParsedFile) :
    ∀ e ∈ (buildFileGraph fs root files).edges,
      (∃ n ∈ (buildFileGraph fs root files).nodes, n.id = e.source) ∧
      (∃ n ∈ (buildFileGraph fs root files).nodes, n.id = e.target) := by
  intro e he
  obtain ⟨⟨p1, hp1, h1⟩, ⟨p2, hp2, h2⟩⟩ :=
    buildFileGraph_edges_endpoints fs root files e he
  obtain ⟨n1, hn1, hid1, -, -⟩ := buildFileGraph_node_of_file fs root files p1 hp1
  obtain ⟨n2, hn2, hid2, -, -⟩ := buildFileGraph_node_of_file fs root files p2 hp2
  exact ⟨⟨n1, hn1, by rw [hid1, h1]⟩, ⟨n2, hn2, by rw [hid2, h2]⟩⟩

/-- C9 (witness): the concrete edge `main.py → utils.py` of the two-file
set has both endpoints among the node ids. -/
theorem C9_edge_endpoints_are_node_ids_witness :
    c9Edge ∈ (buildFileGraph c9FS ["r"] [c9Util, c9Main]).edges
    ∧ ((∃ n ∈ (buildFileGraph c9FS ["r"] [c9Util, c9Main]).nodes,
          n.id = c9Edge.source) ∧
       (∃ n ∈ (buildFileGraph c9FS ["r"] [c9Util, c9Main]).nodes,
          n.id = c9Edge.target)) :=
  ⟨by decide,
   C9_edge_endpoints_are_node_ids c9FS ["r"] [c9Util, c9Main] c9Edge (by decide)⟩

/-- C1: evaluation of the code at the claim's own example.  On the set
`{a/util.py defining f, a/main.py importing '.util'}`, `build_file_graph`
produces NO edge at all: in `_resolve_import`, a level-1 relative import
reaches `package_parts[:-(level - 1)]` with `level - 1 = 0`, and
`parts[:-0]` is `parts[:0] = []` in Python, so the enclosing package
`a` is discarded and `.util` is looked up as the non-existent module
`util` instead of `a.util` (the code's own comment says "Go up
`level - 1` directories", i.e. keep the whole package for level 1).
The claim (and the spec's resolver-correctness property) requires
exactly one edge `main.py → util.py`. -/
theorem C1_level1_relative_import_yields_no_edge :
    (buildFileGraph c1FS ["root"] [c1Util, c1Main]).edges = []
    ∧ resolveImport c1FS ["root"] [c1Util, c1Main]
        (buildFileModuleMap c1FS ["root"] [c1Util, c1Main]) ".util"
        ["root", "a", "main.py"] = none :=
  ⟨by decide, by decide⟩

theorem le_foldl_max (l : List Nat) (acc : Nat) : acc ≤ l.foldl Nat.max acc := by
  induction l generalizing acc with
  | nil => exact Nat.le_refl _
  | cons a t ih => exact Nat.le_trans (Nat.le_max_left acc a) (ih _)

theorem mem_le_foldl_max {l : List Nat} {a : Nat} (acc : Nat) (h : a ∈ l) :
    a ≤ l.foldl Nat.max acc := by
  induction l generalizing acc with
  | nil => cases h
  | cons b t ih =>
    rcases List.mem_cons.mp h with rfl | h'
    · exact Nat.le_trans (Nat.le_max_right acc a) (le_foldl_max t _)
    · exact ih _ h'

theorem foldl_max_le {l : List Nat} {b : Nat} (acc : Nat) (hacc : acc ≤ b)
    (h : ∀ a ∈ l, a ≤ b) : l.foldl Nat.max acc ≤ b := by
  induction l generalizing acc with
  | nil => exact hacc
  | cons a t ih =>
    exact ih _ (Nat.max_le.mpr ⟨hacc, h a (List.mem_cons_self a t)⟩)
      (fun x hx => h x (List.mem_cons_of_mem _ hx))

/-- Taking the running maximum of `cnt` over a list of keys and over a
superset of those keys agrees, provided `cnt` vanishes on keys of the
larger list missing from the smaller one. -/
theorem foldl_max_map_eq (cnt : String → Nat) (xs ys : List String)
    (hsub : ∀ x ∈ xs, x ∈ ys)
    (hzero : ∀ y ∈ ys, y ∉ xs → cnt y = 0) :
    (xs.map cnt).foldl Nat.max 0 = (ys.map cnt).foldl Nat.max 0 := by
  apply Nat.le_antisymm
  · refine foldl_max_le 0 (Nat.zero_le _) ?_
    intro a ha
    obtain ⟨x, hx, rfl⟩ := List.mem_map.mp ha
    exact mem_le_foldl_max 0 (List.mem_map_of_mem _ (hsub x hx))
  · refine foldl_max_le 0 (Nat.zero_le _) ?_
    intro a ha
    obtain ⟨y, hy, rfl⟩ := List.mem_map.mp ha
    by_cases hmem : y ∈ xs
    · exact mem_le_foldl_max 0 (List.mem_map_of_mem _ hmem)
    · rw [hzero y hy hmem]; exact Nat.zero_le _

theorem inDegreeCount_eq_zero {edges : List FileEdge} {id : String}
    (h : ¬ ∃ e ∈ edges, e.target = id) : inDegreeCount edges id = 0 := by
  unfold inDegreeCount
  rw [List.length_eq_zero, List.filter_eq_nil_iff]
  intro e he
  simp only [beq_iff_eq]
  exact fun heq => h ⟨e, he, heq⟩

theorem outDegreeCount_eq_zero {edges : List FileEdge} {id : String}
    (h : ¬ ∃ e ∈ edges, e.source = id) : outDegreeCount edges id = 0 := by
  unfold outDegreeCount
  rw [List.length_eq_zero, List.filter_eq_nil_iff]
  intro e he
  simp only [beq_iff_eq]
  exact fun heq => h ⟨e, he, heq⟩

/-- On a graph built by `build_file_graph`, the maximum the code takes
over the in-degree dict's values coincides with the claim's maximum over
all nodes: edge targets are node ids, and nodes that are no edge's
target have in-degree 0. -/
theorem maxInDegree_eq_spec (fs : FileSys) (root : List String)
    (files : List ParsedFile) :
    maxInDegree (buildFileGraph fs root files).edges
      = specMaxInDegree (buildFileGraph fs root files) := by
  unfold maxInDegree specMaxInDegree
  by_cases hemp : (buildFileGraph fs root files).edges.isEmpty
  · rw [if_pos hemp, if_pos hemp]
  · rw [if_neg hemp, if_neg hemp]
    have hnodes : (buildFileGraph fs root files).nodes.map (fun n => n.in_degree)
        = ((buildFileGraph fs root files).nodes.map (fun n => n.id)).map
            (inDegreeCount (buildFileGraph fs root files).edges) := by
      rw [List.map_map]
      refine List.map_congr_left ?_
      intro n hn
      exact (buildFileGraph_node_fields fs root files n hn).2.1
    rw [hnodes]
    apply foldl_max_map_eq
    · intro x hx
      obtain ⟨e, he, rfl⟩ := List.mem_map.mp hx
      obtain ⟨pf, hpf, hrel⟩ := (buildFileGraph_edges_endpoints fs root files e he).2
      obtain ⟨n, hn, hid, -, -⟩ := buildFileGraph_node_of_file fs root files pf hpf
      exact List.mem_map.mpr ⟨n, hn, by rw [hid, hrel]⟩
    · intro y hy hnot
      refine inDegreeCount_eq_zero ?_
      rintro ⟨e, he, rfl⟩
      exact hnot (List.mem_map_of_mem _ he)

/-- Counterpart of `maxInDegree_eq_spec` for out-degrees. -/
theorem maxOutDegree_eq_spec (fs : FileSys) (root : List String)
    (files : List ParsedFile) :
    maxOutDegree (buildFileGraph fs root files).edges
      = specMaxOutDegree (buildFileGraph fs root files) := by
  unfold maxOutDegree specMaxOutDegree
  by_cases hemp : (buildFileGraph fs root files).edges.isEmpty
  · rw [if_pos hemp, if_pos hemp]
  · rw [if_neg hemp, if_neg hemp]
    have hnodes : (buildFileGraph fs root files).nodes.map (fun n => n.out_degree)
        = ((buildFileGraph fs root files).nodes.map (fun n => n.id)).map
            (outDegreeCount (buildFileGraph fs root files).edges) := by
      rw [List.map_map]
      refine List.map_congr_left ?_
      intro n hn
      exact (buildFileGraph_node_fields fs root files n hn).2.2.1
    rw [hnodes]
    apply foldl_max_map_eq
    · intro x hx
      obtain ⟨e, he, rfl⟩ := List.mem_map.mp hx
      obtain ⟨pf, hpf, hrel⟩ := (buildFileGraph_edges_endpoints fs root files e he).1
      obtain ⟨n, hn, hid, -, -⟩ := buildFileGraph_node_of_file fs root files pf hpf
      exact List.mem_map.mpr ⟨n, hn, by rw [hid, hrel]⟩
    · intro y hy hnot
      refine outDegreeCount_eq_zero ?_
      rintro ⟨e, he, rfl⟩
      exact hnot (List.mem_map_of_mem _ he)

/-- The divisor the code uses for in-degrees is never zero. -/
theorem maxInDegree_pos (edges : List FileEdge) : 0 < maxInDegree edges := by
  unfold maxInDegree
  cases edges with
  | nil => simp
  | cons e t =>
    rw [if_neg (by simp)]
    have h1 : 1 ≤ inDegreeCount (e :: t) e.target := by
      have : e ∈ (e :: t).filter (fun x => x.target == e.target) :=
        List.mem_filter.mpr ⟨List.mem_cons_self e t, by simp⟩
      exact List.length_pos_of_mem this
    have hmem : inDegreeCount (e :: t) e.target
        ∈ ((e :: t).map (fun x => x.target)).map (inDegreeCount (e :: t)) :=
      List.mem_map_of_mem _ (List.mem_map_of_mem _ (List.mem_cons_self e t))
    exact Nat.lt_of_lt_of_le h1 (mem_le_foldl_max 0 hmem)

/-- The divisor the code uses for out-degrees is never zero. -/
theorem maxOutDegree_pos (edges : List FileEdge) : 0 < maxOutDegree edges := by
  unfold maxOutDegree
  cases edges with
  | nil => simp
  | cons e t =>
    rw [if_neg (by simp)]
    have h1 : 1 ≤ outDegreeCount (e :: t) e.source := by
      have : e ∈ (e :: t).filter (fun x => x.source == e.source) :=
        List.mem_filter.mpr ⟨List.mem_cons_self e t, by simp⟩
      exact List.length_pos_of_mem this
    have hmem : outDegreeCount (e :: t) e.source
        ∈ ((e :: t).map (fun x => x.source)).map (outDegreeCount (e :: t)) :=
      List.mem_map_of_mem _ (List.mem_map_of_mem _ (List.mem_cons_self e t))
    exact Nat.lt_of_lt_of_le h1 (mem_le_foldl_max 0 hmem)

/-- C5: in every graph produced by `build_file_graph()`, each node's
centrality equals `0.7·(in_degree/max_in) + 0.3·(out_degree/max_out)`
with `max_in` and `max_out` the maximum observed in-degree and
out-degree over all nodes (taken as 1 when the graph has no edges), and
these divisors are never zero. -/
theorem C5_centrality_formula (fs : FileSys) (root : List String)
    (files : List ParsedFile) :
    (∀ n ∈ (buildFileGraph fs root files).nodes,
        n.centrality =
          (n.in_degree : ℚ) / (specMaxInDegree (buildFileGraph fs root files) : ℚ)
              * (7 / 10)
            + (n.out_degree : ℚ) / (specMaxOutDegree (buildFileGraph fs root files) : ℚ)
              * (3 / 10))
    ∧ 0 < specMaxInDegree (buildFileGraph fs root files)
    ∧ 0 < specMaxOutDegree (buildFileGraph fs root files) := by
  refine ⟨?_, ?_, ?_⟩
  · intro n hn
    obtain ⟨-, hin, hout, hcent⟩ := buildFileGraph_node_fields fs root files n hn
    rw [hcent, hin, hout]
    unfold centralityScore
    rw [maxInDegree_eq_spec, maxOutDegree_eq_spec]
  · rw [← maxInDegree_eq_spec fs root files]; exact maxInDegree_pos _
  · rw [← maxOutDegree_eq_spec fs root files]; exact maxOutDegree_pos _

/-- C5 (witness): the formula instantiated at the `utils.py` node of the
concrete two-file graph. -/
theorem C5_centrality_formula_witness :
    c5Node.centrality =
      (c5Node.in_degree : ℚ)
          / (specMaxInDegree (buildFileGraph c9FS ["r"] [c9Util, c9Main]) : ℚ)
          * (7 / 10)
        + (c5Node.out_degree : ℚ)
          / (specMaxOutDegree (buildFileGraph c9FS ["r"] [c9Util, c9Main]) : ℚ)
          * (3 / 10) :=
  (C5_centrality_formula c9FS ["r"] [c9Util, c9Main]).1 c5Node (List.head_mem _)

/-- C3: counterexample.  Adding the importer edge `s → t` raises `t`'s
in-degree from 1 to 2 but lowers `t`'s centrality from `31/80` to
`30/80`: the new edge also raises `s`'s out-degree to the new maximum 3,
shrinking `t`'s normalized out-degree term from `0.3·(2/2)` to
`0.3·(2/3)` by more than the in-degree term gains (`0.7/8`).  So
centrality as recomputed by `_calculate_centrality` can decrease. -/
theorem C3_centrality_can_decrease :
    inDegreeCount (c3Edges ++ [c3New]) "t" = inDegreeCount c3Edges "t" + 1
    ∧ centralityScore (c3Edges ++ [c3New]) "t" < centralityScore c3Edges "t" := by
  refine ⟨by decide, ?_⟩
  have h1 : inDegreeCount c3Edges "t" = 1 := by decide
  have h2 : outDegreeCount c3Edges "t" = 2 := by decide
  have h3 : maxInDegree c3Edges = 8 := by decide
  have h4 : maxOutDegree c3Edges = 2 := by decide
  have h5 : inDegreeCount (c3Edges ++ [c3New]) "t" = 2 := by decide
  have h6 : outDegreeCount (c3Edges ++ [c3New]) "t" = 2 := by decide
  have h7 : maxInDegree (c3Edges ++ [c3New]) = 8 := by decide
  have h8 : maxOutDegree (c3Edges ++ [c3New]) = 3 := by decide
  unfold centralityScore
  rw [h1, h2, h3, h4, h5, h6, h7, h8]
  norm_num

/-- C3 (amended): adding one edge from an importer to the target, all
other edges fixed, never decreases the target's in-degree — it increases
it by exactly one. -/
theorem C3_in_degree_increases (edges : List FileEdge) (e : FileEdge)
    (t : String) (h : e.target = t) :
    inDegreeCount (edges ++ [e]) t = inDegreeCount edges t + 1 := by
  unfold inDegreeCount
  rw [List.filter_append, List.length_append]
  simp [List.filter, h]

/-- C3 (amended, witness): the in-degree increment at the concrete
counterexample edge set. -/
theorem C3_in_degree_increases_witness :
    c3New.target = "t"
    ∧ inDegreeCount (c3Edges ++ [c3New]) "t" = inDegreeCount c3Edges "t" + 1 :=
  ⟨rfl, C3_in_degree_increases c3Edges c3New "t" rfl⟩

/-- C4: on the three-edge cycle `X→Y, Y→Z, Z→X` (distinct files),
`detect_circular_dependencies()` reports at least one cycle containing
all of X, Y and Z; on the acyclic chain `X→Y, Y→Z` it reports none. -/
theorem C4_cycle_detection (x y z : String) (hxy : x ≠ y) (hyz : y ≠ z)
    (hxz : x ≠ z) :
    (∃ c ∈ detectCircularDependencies [c4e x y, c4e y z, c4e z x],
        x ∈ c ∧ y ∈ c ∧ z ∈ c)
    ∧ detectCircularDependencies [c4e x y, c4e y z] = [] := by
  have hcyc : detectCircularDependencies [c4e x y, c4e y z, c4e z x]
      = [[x, y, z, x]] := by
    simp [detectCircularDependencies, buildAdjacencyList, adjAppend, adjGet,
      findEntry, dfs, pyIndex, c4e, hxy, hyz, hxz,
      Ne.symm hxy, Ne.symm hyz, Ne.symm hxz, List.erase,
      beq_false_of_ne hxy, beq_false_of_ne hyz, beq_false_of_ne hxz,
      beq_false_of_ne (Ne.symm hxy), beq_false_of_ne (Ne.symm hyz),
      beq_false_of_ne (Ne.symm hxz)]
  have hacy : detectCircularDependencies [c4e x y, c4e y z] = [] := by
    simp [detectCircularDependencies, buildAdjacencyList, adjAppend, adjGet,
      findEntry, dfs, pyIndex, c4e, hxy, hyz, hxz,
      Ne.symm hxy, Ne.symm hyz, Ne.symm hxz, List.erase,
      beq_false_of_ne hxy, beq_false_of_ne hyz, beq_false_of_ne hxz,
      beq_false_of_ne (Ne.symm hxy), beq_false_of_ne (Ne.symm hyz),
      beq_false_of_ne (Ne.symm hxz)]
  exact ⟨⟨[x, y, z, x], by rw [hcyc]; simp, by simp⟩, hacy⟩

/-- C4 (witness): the detection run on three concrete file names. -/
theorem C4_cycle_detection_witness :
    (("x.py" : String) ≠ "y.py" ∧ ("y.py" : String) ≠ "z.py"
      ∧ ("x.py" : String) ≠ "z.py")
    ∧ ((∃ c ∈ detectCircularDependencies
          [c4e "x.py" "y.py", c4e "y.py" "z.py", c4e "z.py" "x.py"],
          "x.py" ∈ c ∧ "y.py" ∈ c ∧ "z.py" ∈ c)
       ∧ detectCircularDependencies [c4e "x.py" "y.py", c4e "y.py" "z.py"] = []) :=
  ⟨⟨by decide, by decide, by decide⟩,
   C4_cycle_detection "x.py" "y.py" "z.py" (by decide) (by decide) (by decide)⟩

theorem parsePythonFile_read_error (env : ParseEnv) (p : List String)
    (h : env.read p = .error ()) : parsePythonFile env p = none := by
  simp [parsePythonFile, h]

theorem parseJsTsFile_read_error (env : ParseEnv) (p : List String)
    (h : env.read p = .error ()) : parseJsTsFile env p = none := by
  simp [parseJsTsFile, h]

theorem parseRegexLangFile_read_error (env : ParseEnv) (p : List String)
    (lang : String) (h : env.read p = .error ()) :
    parseRegexLangFile env p lang = none := by
  simp [parseRegexLangFile, h]

theorem parsePythonFile_shape (env : ParseEnv) (p : List String) :
    parsePythonFile env p = none
    ∨ ∃ r, parsePythonFile env p = some r ∧ r.filepath = p := by
  unfold parsePythonFile
  split
  · exact Or.inl rfl
  · split
    · exact Or.inl rfl
    · exact Or.inr ⟨_, rfl, rfl⟩

theorem parseJsTsFile_shape (env : ParseEnv) (p : List String) :
    parseJsTsFile env p = none
    ∨ ∃ r, parseJsTsFile env p = some r ∧ r.filepath = p := by
  unfold parseJsTsFile
  split
  · exact Or.inl rfl
  · split
    · exact Or.inl rfl
    · exact Or.inr ⟨_, rfl, rfl⟩

theorem parseRegexLangFile_shape (env : ParseEnv) (p : List String)
    (lang : String) :
    parseRegexLangFile env p lang = none
    ∨ ∃ r, parseRegexLangFile env p lang = some r ∧ r.filepath = p := by
  unfold parseRegexLangFile
  split
  · exact Or.inl rfl
  · split
    · exact Or.inl rfl
    · exact Or.inr ⟨_, rfl, rfl⟩

set_option maxHeartbeats 1000000 in
/-- C6: `parse_file` is total on its own terms: an unregistered
extension yields `None`; a read/decode failure yields `None` in every
dispatch branch; a syntax failure of the grammar parser (shown for the
Python branch the claim's sources point at) yields `None`; and in all
cases the result is `None` or a parsed-file record for the given
path — never a propagated exception. -/
theorem C6_parse_file_never_raises (env : ParseEnv) (p : List String) :
    (fileExt (baseName p) ∉ supportedExtensions → parseFile env p = none)
    ∧ (env.read p = .error () → parseFile env p = none)
    ∧ (∀ src size, env.read p = .ok (src, size) →
        fileExt (baseName p) = ".py" → env.pyAst src = .error () →
        parseFile env p = none)
    ∧ (parseFile env p = none
        ∨ ∃ r, parseFile env p = some r ∧ r.filepath = p) := by
  have hcases : ∀ ext, extDispatch env p ext = none
      ∨ extDispatch env p ext = parsePythonFile env p
      ∨ extDispatch env p ext = parseJsTsFile env p
      ∨ ∃ lang, extDispatch env p ext = parseRegexLangFile env p lang := by
    intro ext
    unfold extDispatch
    by_cases h1 : ext = ".py"
    · rw [if_pos h1]; exact Or.inr (Or.inl rfl)
    rw [if_neg h1]
    by_cases h2 : ext ∈ [".js", ".ts", ".tsx", ".jsx"]
    · rw [if_pos h2]; exact Or.inr (Or.inr (Or.inl rfl))
    rw [if_neg h2]
    by_cases h3 : ext = ".java"
    · rw [if_pos h3]; exact Or.inr (Or.inr (Or.inr ⟨_, rfl⟩))
    rw [if_neg h3]
    by_cases h4 : ext ∈ [".c", ".h", ".cpp", ".hpp", ".cc", ".cxx"]
    · rw [if_pos h4]; exact Or.inr (Or.inr (Or.inr ⟨_, rfl⟩))
    rw [if_neg h4]
    by_cases h5 : ext = ".go"
    · rw [if_pos h5]; exact Or.inr (Or.inr (Or.inr ⟨_, rfl⟩))
    rw [if_neg h5]
    by_cases h6 : ext = ".rs"
    · rw [if_pos h6]; exact Or.inr (Or.inr (Or.inr ⟨_, rfl⟩))
    rw [if_neg h6]
    by_cases h7 : ext = ".php"
    · rw [if_pos h7]; exact Or.inr (Or.inr (Or.inr ⟨_, rfl⟩))
    rw [if_neg h7]
    by_cases h8 : ext = ".rb"
    · rw [if_pos h8]; exact Or.inr (Or.inr (Or.inr ⟨_, rfl⟩))
    rw [if_neg h8]
    by_cases h9 : ext = ".cs"
    · rw [if_pos h9]; exact Or.inr (Or.inr (Or.inr ⟨_, rfl⟩))
    rw [if_neg h9]
    by_cases h10 : ext = ".swift"
    · rw [if_pos h10]; exact Or.inr (Or.inr (Or.inr ⟨_, rfl⟩))
    rw [if_neg h10]
    by_cases h11 : ext ∈ [".kt", ".kts"]
    · rw [if_pos h11]; exact Or.inr (Or.inr (Or.inr ⟨_, rfl⟩))
    rw [if_neg h11]
    exact Or.inl rfl
  refine ⟨?_, ?_, ?_, ?_⟩
  · intro h
    unfold parseFile
    rw [if_pos h]
  · intro h
    unfold parseFile
    by_cases hs : fileExt (baseName p) ∉ supportedExtensions
    · rw [if_pos hs]
    · rw [if_neg hs]
      rcases hcases (fileExt (baseName p)) with hc | hc | hc | ⟨lang, hc⟩
      · exact hc
      · rw [hc]; exact parsePythonFile_read_error env p h
      · rw [hc]; exact parseJsTsFile_read_error env p h
      · rw [hc]; exact parseRegexLangFile_read_error env p lang h
  · intro src size hread hext hast
    have hsup : ¬ fileExt (baseName p) ∉ supportedExtensions := by
      rw [hext]; decide
    unfold parseFile
    rw [if_neg hsup, hext]
    unfold extDispatch
    rw [if_pos rfl]
    simp only [parsePythonFile, hread, hast]
  · unfold parseFile
    by_cases hs : fileExt (baseName p) ∉ supportedExtensions
    · rw [if_pos hs]; exact Or.inl rfl
    · rw [if_neg hs]
      rcases hcases (fileExt (baseName p)) with hc | hc | hc | ⟨lang, hc⟩
      · rw [hc]; exact Or.inl rfl
      · rw [hc]; exact parsePythonFile_shape env p
      · rw [hc]; exact parseJsTsFile_shape env p
      · rw [hc]; exact parseRegexLangFile_shape env p lang

/-- C6 (witness): a failing read of a supported file is converted to
`None`. -/
theorem C6_parse_file_never_raises_witness :
    c6Env.read ["r", "x.py"] = .error ()
    ∧ parseFile c6Env ["r", "x.py"] = none :=
  ⟨rfl, (C6_parse_file_never_raises c6Env ["r", "x.py"]).2.1 rfl⟩

/-- C7: counterexample.  With a cache entry that passes the age check,
matching fingerprints, and loadable cached files and graph, a request
with `force_refresh=True` still runs a fresh scan — the claim's second
half ("when both fingerprints match, ... the cached result is returned
unchanged with cached=true") omits the `use_cache`/`force_refresh`
request flags and is false as stated. -/
theorem C7_force_refresh_counterexample :
    is_cache_valid c7Store 0 24 = true
    ∧ c7Meta.exclude_patterns_hash.getD "" = "ex"
    ∧ c7Meta.just_me_patterns_hash.getD "" = "jm"
    ∧ load_parsed_files c7Store = some [("utils.py", c9Util)]
    ∧ load_dependency_graph c7Store = some { nodes := [], edges := [] }
    ∧ scan_project { use_cache := true, force_refresh := true } c7Store 0 24
        "ex" "jm" = .freshScan := by
  refine ⟨?_, rfl, rfl, rfl, rfl, ?_⟩
  · simp only [is_cache_valid, load_metadata, c7Store, c7Meta,
      decide_eq_true_eq]
    norm_num
  · simp [scan_project]

/-- C7 (amended): in `scan_project`, a cache entry is bypassed and a
fresh scan runs whenever the stored exclude-pattern or just-me-pattern
fingerprint differs from the active one — even within the age ceiling;
and when the request has `use_cache` set and `force_refresh` unset,
both fingerprints match, the age check passes, and the cached files
(nonempty) and graph load, the cached result is returned unchanged with
`cached=true`. -/
theorem C7_fingerprint_invalidates_cache (req : ScanRequest) (s : CacheStore)
    (now max_age_hours : ℚ) (ex jm : String) :
    (∀ m, load_metadata s = some m →
        (m.exclude_patterns_hash.getD "" ≠ ex ∨
         m.just_me_patterns_hash.getD "" ≠ jm) →
        scan_project req s now max_age_hours ex jm = .freshScan)
    ∧ (∀ m files graph,
        req.use_cache = true → req.force_refresh = false →
        is_cache_valid s now max_age_hours = true →
        load_metadata s = some m →
        m.exclude_patterns_hash.getD "" = ex →
        m.just_me_patterns_hash.getD "" = jm →
        load_parsed_files s = some files → files ≠ [] →
        load_dependency_graph s = some graph →
        scan_project req s now max_age_hours ex jm
          = .cachedResult files (some m)) := by
  constructor
  · intro m hm hdiff
    unfold scan_project
    rcases hdiff with h | h <;> simp [hm, h]
  · intro m files graph huse hforce hvalid hm hex hjm hfiles hne hgraph
    unfold scan_project
    cases files with
    | nil => exact absurd rfl hne
    | cons f fs =>
      simp [huse, hforce, hvalid, hm, hex, hjm, hfiles, hgraph]

/-- C7 (amended, witness): with the healthy entry and default flags the
cached result is returned unchanged. -/
theorem C7_fingerprint_invalidates_cache_witness :
    scan_project { use_cache := true, force_refresh := false } c7Store 0 24
      "ex" "jm" = .cachedResult [("utils.py", c9Util)] (some c7Meta) :=
  (C7_fingerprint_invalidates_cache
      { use_cache := true, force_refresh := false } c7Store 0 24 "ex" "jm").2
    c7Meta [("utils.py", c9Util)] { nodes := [], edges := [] }
    rfl rfl
    (by simp only [is_cache_valid, load_metadata, c7Store, c7Meta,
          decide_eq_true_eq]
        norm_num)
    rfl rfl rfl rfl (by simp) rfl

/-- C8: a missing or corrupt cache document makes the corresponding
load call return `None` (a cache miss) instead of raising, and
`is_cache_valid` returns `False` when the metadata document is
absent. -/
theorem C8_cache_misses (s : CacheStore) (now max_age_hours : ℚ) :
    ((s.filesDoc = .absent ∨ s.filesDoc = .corrupt) →
        load_parsed_files s = none)
    ∧ ((s.graphDoc = .absent ∨ s.graphDoc = .corrupt) →
        load_dependency_graph s = none)
    ∧ ((s.metadataDoc = .absent ∨ s.metadataDoc = .corrupt) →
        load_metadata s = none)
    ∧ (s.metadataDoc = .absent → is_cache_valid s now max_age_hours = false) := by
  refine ⟨?_, ?_, ?_, ?_⟩
  · rintro (h | h) <;> simp [load_parsed_files, h]
  · rintro (h | h) <;> simp [load_dependency_graph, h]
  · rintro (h | h) <;> simp [load_metadata, h]
  · intro h
    simp [is_cache_valid, load_metadata, h]

/-- C8 (witness): on the empty cache, all loads miss and the validity
check is `False`. -/
theorem C8_cache_misses_witness :
    load_parsed_files c8Store = none
    ∧ load_dependency_graph c8Store = none
    ∧ load_metadata c8Store = none
    ∧ is_cache_valid c8Store 0 24 = false :=
  ⟨(C8_cache_misses c8Store 0 24).1 (Or.inl rfl),
   (C8_cache_misses c8Store 0 24).2.1 (Or.inl rfl),
   (C8_cache_misses c8Store 0 24).2.2.1 (Or.inl rfl),
   (C8_cache_misses c8Store 0 24).2.2.2 rfl⟩

end CodeDevour
